import Mathlib

/-!
Verification of `onepassword_secrets.py` (1password-secrets).

The program is a small synchronous orchestrator.  We embed it shallowly:
every external effect (subprocess call to the `op` vault CLI, the fly
GraphQL call, file IO, prints, the interactive prompt) is recorded as an
`Event` in a trace, and the outside world's responses are supplied by an
`Env` record.  A computation is a pair of the emitted trace and an
`Except Err` result, mirroring Python exception propagation.
-/

/-- One entry of `op item list` output: an item id and title. -/
structure Item where
  id : String
  title : String
deriving DecidableEq

/-- One field of a vault item, as in `op item get` JSON: an `id`, a `label`
and an optional `value` (Python reads it with `field.get('value')`).
Named `VField` because `Field` is taken by Mathlib. -/
structure VField where
  id : String
  label : String
  value : Option String
deriving DecidableEq

/-- A vault item's detail: its ordered list of fields. -/
structure VaultItem where
  fields : List VField
deriving DecidableEq

/-- One entry of the GraphQL `secrets` payload: `{'key': key, 'value': value}`. -/
structure SecretKV where
  key : String
  value : String
deriving DecidableEq

/-- Response of the fly GraphQL `setSecrets` mutation: either an error list
(modelled by its first element, which is what the code reports) or a
successful release version. -/
inductive FlyResp where
  | errs (first : String)
  | success (version : Nat)
deriving DecidableEq

/-- Errors that can propagate to `main`.  `runtime msg` is the
`RuntimeError(message)` raised by `raise_error`; `ioError` models an OS
error from `open`; `diverge` marks the interactive y/n loop exhausting the
supplied answers (the Python loop would block forever). -/
inductive Err where
  | runtime (msg : String)
  | ioError
  | diverge
deriving DecidableEq

/-- Observable events, in program order. -/
inductive Event where
  /-- `op item list --categories "Secure Note" --format json` -/
  | opItemList
  /-- `op item get <id> --format json` -/
  | opItemGet (item_id : String)
  /-- `op item edit <id> <assignment>` (notes update or custom-field stamp) -/
  | opItemEdit (item_id : String) (assignment : String)
  /-- `fly auth token --json` -/
  | flyAuthToken
  /-- the GraphQL `setSecrets` mutation with its variables -/
  | flySetSecrets (app_id : String) (payload : List SecretKV) (replaceAll : Bool)
  /-- `git config --get remote.origin.url` -/
  | gitConfigGetOriginUrl
  /-- `code --wait <tempfile>` after writing `content` to the temp file -/
  | runEditor (content : String)
  /-- one iteration of the interactive y/n `input` prompt -/
  | promptImport
  /-- `open(name, 'r')` plus `read()` -/
  | readLocalFile (name : String)
  /-- `open(name, 'w')` plus `writelines(content)` -/
  | writeLocalFile (name : String) (content : String)
  /-- `print(msg)` -/
  | print (msg : String)
deriving DecidableEq

/-- The outside world: vault contents, fly responses, clock, editor
behaviour, local files, git remote, and the user's prompt answers. -/
structure Env where
  /-- items returned by `op item list --categories "Secure Note"` -/
  secureNotes : List Item
  /-- detail returned by `op item get <id>` -/
  getItem : String → VaultItem
  /-- token returned by `fly auth token` -/
  flyToken : String
  /-- GraphQL response, as a function of app id and payload -/
  flyResponse : String → List SecretKV → FlyResp
  /-- `datetime.now().strftime(DATE_FORMAT)` of this run -/
  now : String
  /-- temp-file content after the editor exits, given the content written -/
  editorOutput : String → String
  /-- readable local files (`none` = `open` for reading raises) -/
  localFiles : String → Option String
  /-- decoded `git config --get remote.origin.url` output, `none` = the
  subprocess exited non-zero -/
  gitRemoteUrl : Option String
  /-- successive answers typed at the y/n prompt -/
  answers : List String

/-- A computation: the trace of events it emits and its outcome. -/
abbrev M (α : Type) := List Event × Except Err α

def M.ok {α : Type} (a : α) : M α := ([], Except.ok a)

def M.bind {α β : Type} (x : M α) (f : α → M β) : M β :=
  match x with
  | (tr, Except.error e) => (tr, Except.error e)
  | (tr, Except.ok a) => (tr ++ (f a).1, (f a).2)

@[simp] theorem M.bind_error {α β : Type} (tr : List Event) (e : Err) (f : α → M β) :
    M.bind (tr, Except.error e) f = (tr, Except.error e) := rfl

@[simp] theorem M.bind_ok {α β : Type} (tr : List Event) (a : α) (f : α → M β) :
    M.bind (tr, Except.ok a) f = (tr ++ (f a).1, (f a).2) := rfl

/-- Record one event and continue. -/
def emit (e : Event) : M Unit := ([e], Except.ok ())

/-- `raise_error(message)`: prints the message, then raises `RuntimeError`. -/
def raise_error {α : Type} (msg : String) : M α :=
  ([Event.print msg], Except.error (Err.runtime msg))

/-- `sub` occurs as a contiguous sublist of `l`. -/
def infixOfList (sub : List Char) : List Char → Bool
  | [] => sub.isEmpty
  | c :: rest => List.isPrefixOf sub (c :: rest) || infixOfList sub rest

/-- Python `sub in s` (contiguous substring test). -/
def containsSub (s sub : String) : Bool := infixOfList sub.data s.data

/-- Predicate of the generator in `get_1password_env_file_item_id`:
`title_substring in item['title']`. -/
def title_matches (sub : String) (item : Item) : Bool := containsSub item.title sub

/-- Predicate `field['id'] == fid`. -/
def field_id_is (fid : String) (f : VField) : Bool := f.id == fid

/-- Predicate `field['label'] == lab`. -/
def field_label_is (lab : String) (f : VField) : Bool := f.label == lab

/-- `first(field.get('value') for field in item['fields'] if field['id'] == 'notesPlain')`:
the value of the first field with id `notesPlain` (which may itself be absent). -/
def notes_value (item : VaultItem) : Option String :=
  (item.fields.find? (field_id_is "notesPlain")).bind VField.value

/-- `first(field.get('value') for field in item['fields'] if field['label'] == 'file_name')`. -/
def filename_value (item : VaultItem) : Option String :=
  (item.fields.find? (field_label_is "file_name")).bind VField.value

def DEFAULT_ENV_FILE_NAME : String := ".env"

/-- Python `x or DEFAULT_ENV_FILE_NAME` on an optional string: `None` and
the empty string are falsy, so both fall back to the default. -/
def or_default (o : Option String) : String :=
  match o with
  | some s => if s = "" then DEFAULT_ENV_FILE_NAME else s
  | none => DEFAULT_ENV_FILE_NAME

/-- Split a line at its first `=`, returning (left, right); `none` if the
line has no `=`. -/
def splitEq : List Char → Option (List Char × List Char)
  | [] => none
  | '=' :: rest => some ([], rest)
  | c :: rest => (splitEq rest).map (fun p => (c :: p.1, p.2))

/-- Whitespace stripped by trimming (space, tab, CR, LF). -/
def isSpaceChar (c : Char) : Bool := c = ' ' || c = '\t' || c = '\r' || c = '\n'

/-- Strip leading and trailing whitespace. -/
def trimChars (cs : List Char) : List Char :=
  ((cs.dropWhile isSpaceChar).reverse.dropWhile isSpaceChar).reverse

/-- Split on newline characters (structurally, so proofs can evaluate it). -/
def splitLines : List Char → List (List Char)
  | [] => [[]]
  | '\n' :: rest => [] :: splitLines rest
  | c :: rest =>
    match splitLines rest with
    | [] => [[c]]
    | l :: ls => (c :: l) :: ls

/-- Strip one pair of surrounding double quotes, if present. -/
def strip_quotes (cs : List Char) : List Char :=
  if 2 ≤ cs.length ∧ cs.head? = some '"' ∧ cs.getLast? = some '"'
  then (cs.drop 1).dropLast
  else cs

/-- Insert `(k, v)` into an association list with Python-dict semantics:
a later assignment to an existing key overwrites its value in place, a new
key is appended. -/
def upsert (l : List (String × String)) (k v : String) : List (String × String) :=
  if l.any (fun p => p.1 == k)
  then l.map (fun p => if p.1 == k then (k, v) else p)
  else l ++ [(k, v)]

/-- Modelled from the spec: one line of the Environment Codec `parse`
(the underlying `dotenv_values` library is not part of this repository).
Per 4.4: `KEY=VALUE` lines, one per line, blank lines and comment lines
ignored, values may be quoted, invalid (empty) keys ignored. -/
def parse_line (l : List (String × String)) (line : List Char) : List (String × String) :=
  let t := trimChars line
  if t.isEmpty then l
  else if t.head? = some '#' then l
  else match splitEq t with
    | none => l
    | some (k, v) =>
      let key := trimChars k
      if key.isEmpty then l
      else upsert l (String.mk key) (String.mk (strip_quotes (trimChars v)))

/-- Modelled from the spec: `get_secrets_from_envs` delegates to
`dotenv_values`, which is not part of this repository; per 4.4 it parses
environment-file text into a `SecretSet` mapping (here an ordered
association list with unique keys). -/
def get_secrets_from_envs (input : String) : List (String × String) :=
  (splitLines input.data).foldl parse_line []

/-- Drop `pre` from the front of `cs`, or fail. -/
def dropPre : List Char → List Char → Option (List Char)
  | [], cs => some cs
  | _ :: _, [] => none
  | p :: ps, c :: cs => if p = c then dropPre ps cs else none

/-- The tail of `GIT_REPOSITORY_REGEX` after the fifth group's opening
slash: `(.+).git$` with Python semantics.  `.` matches any character but
newline; the dot before `git` is NOT escaped in the source, so it matches
any character; `$` matches at the end of the string or just before a
final newline.  Greedy `(.+)` takes the longest admissible prefix, so the
only candidate split points are `n-4` (anchor at the very end) and `n-5`
(anchor before a final newline); the longer one is preferred.  Returns
group 5. -/
def g5match (s : List Char) : Option (List Char) :=
  let n := s.length
  if 5 ≤ n ∧ s.drop (n - 3) = ['g', 'i', 't'] ∧
     (s.take (n - 4)).contains '\n' = false ∧ s.getD (n - 4) ' ' ≠ '\n'
  then some (s.take (n - 4))
  else if 6 ≤ n ∧ s.drop (n - 4) = ['g', 'i', 't', '\n'] ∧
     (s.take (n - 5)).contains '\n' = false ∧ s.getD (n - 5) ' ' ≠ '\n'
  then some (s.take (n - 5))
  else none

/-- `re.match(GIT_REPOSITORY_REGEX, url)` for
`^(https|git)(://|@)([^/:]+)[/:]([^/:]+)/(.+).git$`, returning groups 4
and 5.  The alternations have disjoint first characters and the negated
character classes cannot contain their own delimiters, so the Python
backtracking engine is deterministic here except for group 5's anchor,
handled in `g5match`. -/
def matchGitRemote (url : String) : Option (String × String) :=
  match (dropPre "https".data url.data).orElse (fun _ => dropPre "git".data url.data) with
  | none => none
  | some r1 =>
    match (dropPre "://".data r1).orElse (fun _ => dropPre "@".data r1) with
    | none => none
    | some r2 =>
      let g3 := r2.takeWhile (fun c => !(c = '/' || c = ':'))
      let r3 := r2.dropWhile (fun c => !(c = '/' || c = ':'))
      if g3.isEmpty then none
      else
        match r3 with
        | [] => none
        | _ :: r4 =>
          let g4 := r4.takeWhile (fun c => !(c = '/' || c = ':'))
          let r5 := r4.dropWhile (fun c => !(c = '/' || c = ':'))
          if g4.isEmpty then none
          else
            match r5 with
            | '/' :: r6 =>
              match g5match r6 with
              | some g5 => some (String.mk g4, String.mk g5)
              | none => none
            | _ => none

/-- `get_1password_env_file_item_id`: list Secure Notes, take the first
whose title contains the substring, else `raise_error`. -/
def get_1password_env_file_item_id (env : Env) (title_substring : String) : M String :=
  M.bind (emit Event.opItemList) fun _ =>
    match (env.secureNotes.find? (title_matches title_substring)).map Item.id with
    | some item_id => M.ok item_id
    | none =>
        raise_error
          ("There is no secure note in 1password with a name containing `"
            ++ title_substring ++ "`")

/-- `get_item_from_1password`: `op item get <id>`. -/
def get_item_from_1password (env : Env) (item_id : String) : M VaultItem :=
  M.bind (emit (Event.opItemGet item_id)) fun _ => M.ok (env.getItem item_id)

/-- `get_envs_from_1password`: the `notesPlain` value of the item;
`raise_error("Empty secrets, aborting")` if it is `None` or `""`. -/
def get_envs_from_1password (env : Env) (item_id : String) : M String :=
  M.bind (get_item_from_1password env item_id) fun item =>
    match notes_value item with
    | some v => if v = "" then raise_error "Empty secrets, aborting" else M.ok v
    | none => raise_error "Empty secrets, aborting"

/-- `get_filename_from_1password`: the `file_name` field value, possibly
absent; no error on absence. -/
def get_filename_from_1password (env : Env) (item_id : String) : M (Option String) :=
  M.bind (get_item_from_1password env item_id) fun item =>
    M.ok (filename_value item)

/-- `get_fly_auth_token`: `fly auth token --json`. -/
def get_fly_auth_token (env : Env) : M String :=
  M.bind (emit Event.flyAuthToken) fun _ => M.ok env.flyToken

/-- `update_fly_secrets`: build `[{key, value}]` from the mapping, send the
`setSecrets` mutation with `replaceAll: True`; on a GraphQL error payload
`raise_error` with its first error, else print the release message. -/
def update_fly_secrets (env : Env) (app_id : String) (secrets : List (String × String)) : M Unit :=
  M.bind (get_fly_auth_token env) fun _ =>
    M.bind (emit (Event.flySetSecrets app_id
        (secrets.map (fun p => SecretKV.mk p.1 p.2)) true)) fun _ =>
      match env.flyResponse app_id (secrets.map (fun p => SecretKV.mk p.1 p.2)) with
      | FlyResp.errs e => raise_error e
      | FlyResp.success version =>
          emit (Event.print
            ("Releasing fly app " ++ app_id ++ " version " ++ toString version))

/-- `update_1password_secrets`: `op item edit <id> notesPlain=<content>`. -/
def update_1password_secrets (env : Env) (item_id content : String) : M Unit :=
  M.bind (M.ok env.flyToken) fun _ =>
    emit (Event.opItemEdit item_id ("notesPlain=" ++ content))

/-- `update_1password_custom_field`:
`op item edit <id> "Generated by 1password-secrets.<field>[text]=<value>"`. -/
def update_1password_custom_field (env : Env) (item_id fieldName value : String) : M Unit :=
  M.bind (M.ok env.flyToken) fun _ =>
    emit (Event.opItemEdit item_id
      ("Generated by 1password-secrets." ++ fieldName ++ "[text]=" ++ value))

/-- `import_1password_secrets_to_fly` (renamed: a Lean line may not start
with the word `import`): lookup `fly:<app_id>`, read and parse the notes,
update fly secrets, then stamp `last imported at`. -/
def fly_import_1password_secrets (env : Env) (app_id : String) : M Unit :=
  M.bind (get_1password_env_file_item_id env ("fly:" ++ app_id)) fun item_id =>
    M.bind (get_envs_from_1password env item_id) fun envs =>
      M.bind (update_fly_secrets env app_id (get_secrets_from_envs envs)) fun _ =>
        update_1password_custom_field env item_id "last imported at" env.now

/-- The `while user_input.lower() not in ['y', 'n']` prompt loop, driven by
the finite list of answers the environment supplies; an exhausted list
models the Python loop blocking forever. -/
def ask_import : List String → M Bool
  | [] => ([], Except.error Err.diverge)
  | a :: rest =>
    M.bind (emit Event.promptImport) fun _ =>
      if a = "y" ∨ a = "Y" then M.ok true
      else if a = "n" ∨ a = "N" then M.ok false
      else ask_import rest

/-- `edit_1password_secrets`: lookup, read notes, run the editor on a temp
file, re-read; if unchanged print and stop; else update notes, stamp
`last edited at`, then prompt whether to run the import. -/
def edit_1password_secrets (env : Env) (app_id : String) : M Unit :=
  M.bind (get_1password_env_file_item_id env ("fly:" ++ app_id)) fun item_id =>
    M.bind (get_envs_from_1password env item_id) fun secrets =>
      M.bind (emit (Event.runEditor secrets)) fun _ =>
        if secrets = env.editorOutput secrets then
          emit (Event.print "No changes detected, aborting.")
        else
          M.bind (update_1password_secrets env item_id (env.editorOutput secrets)) fun _ =>
            M.bind (update_1password_custom_field env item_id "last edited at" env.now) fun _ =>
              M.bind (ask_import env.answers) fun yes =>
                if yes then fly_import_1password_secrets env app_id else M.ok ()

/-- `get_git_repository_name_from_current_directory`: read the origin
remote url (subprocess failure is its own `raise_error`), match it against
`GIT_REPOSITORY_REGEX`, and return `group(4)/group(5)`. -/
def get_git_repository_name_from_current_directory (env : Env) : M String :=
  M.bind (emit Event.gitConfigGetOriginUrl) fun _ =>
    match env.gitRemoteUrl with
    | none => raise_error "Either not in a git repository or remote \"origin\" is not set"
    | some url =>
      match matchGitRemote url with
      | none => raise_error "Could not get remote \"origin\" url from git repository"
      | some (owner, nam) => M.ok (owner ++ "/" ++ nam)

/-- `get_local_secrets`: resolve repository, lookup `repo:<name>`, read raw
notes, pick the file name (`file_name` field or `.env`), write the raw
text, print success. -/
def get_local_secrets (env : Env) : M Unit :=
  M.bind (get_git_repository_name_from_current_directory env) fun repository =>
    M.bind (get_1password_env_file_item_id env ("repo:" ++ repository)) fun item_id =>
      M.bind (get_envs_from_1password env item_id) fun secrets =>
        M.bind (get_filename_from_1password env item_id) fun fn =>
          M.bind (emit (Event.writeLocalFile (or_default fn) secrets)) fun _ =>
            emit (Event.print
              ("Successfully updated " ++ or_default fn ++ " from 1password"))

/-- `push_local_secrets`: resolve repository, lookup `repo:<name>`, pick
the file name, read the local file (an unreadable file raises an OS error
with no message printed), update the notes, stamp `last edited at`, print
success. -/
def push_local_secrets (env : Env) : M Unit :=
  M.bind (get_git_repository_name_from_current_directory env) fun repository_name =>
    M.bind (get_1password_env_file_item_id env ("repo:" ++ repository_name)) fun item_id =>
      M.bind (get_filename_from_1password env item_id) fun fn =>
        M.bind (emit (Event.readLocalFile (or_default fn))) fun _ =>
          match env.localFiles (or_default fn) with
          | none => (([], Except.error Err.ioError) : M Unit)
          | some secrets =>
            M.bind (update_1password_secrets env item_id secrets) fun _ =>
              M.bind (update_1password_custom_field env item_id "last edited at" env.now) fun _ =>
                emit (Event.print
                  ("Successfully pushed secrets from " ++ or_default fn ++ " to 1password"))

/-- The four parsed command lines `main` dispatches on. -/
inductive Command where
  | flyImport (app_name : String)
  | flyEdit (app_name : String)
  | localGet
  | localPush
deriving DecidableEq

/-- The dispatch inside `main`'s `try` block. -/
def run_command (env : Env) : Command → M Unit
  | Command.flyImport a => fly_import_1password_secrets env a
  | Command.flyEdit a => edit_1password_secrets env a
  | Command.localGet => get_local_secrets env
  | Command.localPush => push_local_secrets env

/-- `main`'s outermost `try ... except Exception: sys.exit(1)`: any
exception maps to exit code 1, normal completion to exit code 0. -/
def main_exit_code (env : Env) (cmd : Command) : Nat :=
  match (run_command env cmd).2 with
  | Except.ok _ => 0
  | Except.error _ => 1

/-- If position `i` is the first index of `l` whose element satisfies `p`,
then `find?` returns that element. -/
theorem find_first {α : Type} (p : α → Bool) :
    ∀ (l : List α) (i : Nat) (hi : i < l.length),
      p (l.get ⟨i, hi⟩) = true →
      (∀ (j : Nat) (hj : j < l.length), j < i → p (l.get ⟨j, hj⟩) = false) →
      l.find? p = some (l.get ⟨i, hi⟩)
  | [], i, hi, _, _ => absurd hi (by simp)
  | a :: l, 0, _, hp, _ => List.find?_cons_of_pos l hp
  | a :: l, i + 1, hi, hp, hmin => by
      have ha : p a = false := hmin 0 (by simp) (Nat.succ_pos i)
      rw [List.find?_cons_of_neg l (by simp [ha])]
      exact find_first p l i (by simpa using hi) hp
        (fun j hj hji => hmin (j + 1) (by simpa using hj) (by omega))

/-- The computation, whenever it fails with a `RuntimeError`, has printed
exactly that message as its final event (the behaviour of `raise_error`,
preserved by sequencing). -/
def PrintsOnError {α : Type} (x : M α) : Prop :=
  ∀ m, x.2 = Except.error (Err.runtime m) → x.1.getLast? = some (Event.print m)

theorem printsOnError_raise {α : Type} (msg : String) :
    PrintsOnError (@raise_error α msg) := by
  intro m h
  simp only [raise_error, Except.error.injEq, Err.runtime.injEq] at h
  subst h
  rfl

theorem printsOnError_ok {α : Type} (a : α) : PrintsOnError (M.ok a) := by
  intro m h
  simp [M.ok] at h

theorem printsOnError_emit (e : Event) : PrintsOnError (emit e) := by
  intro m h
  simp [emit] at h

theorem printsOnError_of_not_runtime {α : Type} (x : M α)
    (h : ∀ m, x.2 ≠ Except.error (Err.runtime m)) : PrintsOnError x :=
  fun m hm => absurd hm (h m)

theorem printsOnError_bind {α β : Type} {x : M α} {f : α → M β}
    (hx : PrintsOnError x) (hf : ∀ a, PrintsOnError (f a)) :
    PrintsOnError (M.bind x f) := by
  rcases x with ⟨tr, r⟩
  cases r with
  | error e =>
      intro m h
      simp only [M.bind_error] at h ⊢
      exact hx m (by simpa using h)
  | ok a =>
      intro m h
      simp only [M.bind_ok] at h ⊢
      have hlast := hf a m h
      have hne : (f a).1 ≠ [] := by
        intro hnil
        rw [hnil] at hlast
        simp at hlast
      rw [List.getLast?_append_of_ne_nil _ hne]
      exact hlast

theorem poe_item_id (env : Env) (sub : String) :
    PrintsOnError (get_1password_env_file_item_id env sub) := by
  unfold get_1password_env_file_item_id
  apply printsOnError_bind (printsOnError_emit _)
  intro _
  split
  · exact printsOnError_ok _
  · exact printsOnError_raise _

theorem poe_get_item (env : Env) (item_id : String) :
    PrintsOnError (get_item_from_1password env item_id) :=
  printsOnError_bind (printsOnError_emit _) (fun _ => printsOnError_ok _)

theorem poe_get_envs (env : Env) (item_id : String) :
    PrintsOnError (get_envs_from_1password env item_id) := by
  unfold get_envs_from_1password
  apply printsOnError_bind (poe_get_item env item_id)
  intro item
  split
  · split
    · exact printsOnError_raise _
    · exact printsOnError_ok _
  · exact printsOnError_raise _

theorem poe_get_filename (env : Env) (item_id : String) :
    PrintsOnError (get_filename_from_1password env item_id) :=
  printsOnError_bind (poe_get_item env item_id) (fun _ => printsOnError_ok _)

theorem poe_auth_token (env : Env) : PrintsOnError (get_fly_auth_token env) :=
  printsOnError_bind (printsOnError_emit _) (fun _ => printsOnError_ok _)

theorem poe_update_fly (env : Env) (app_id : String) (secrets : List (String × String)) :
    PrintsOnError (update_fly_secrets env app_id secrets) := by
  unfold update_fly_secrets
  apply printsOnError_bind (poe_auth_token env)
  intro _
  apply printsOnError_bind (printsOnError_emit _)
  intro _
  split
  · exact printsOnError_raise _
  · exact printsOnError_emit _

theorem poe_update_notes (env : Env) (item_id content : String) :
    PrintsOnError (update_1password_secrets env item_id content) :=
  printsOnError_bind (printsOnError_ok _) (fun _ => printsOnError_emit _)

theorem poe_update_custom (env : Env) (item_id fieldName value : String) :
    PrintsOnError (update_1password_custom_field env item_id fieldName value) :=
  printsOnError_bind (printsOnError_ok _) (fun _ => printsOnError_emit _)

theorem poe_fly_import (env : Env) (app_id : String) :
    PrintsOnError (fly_import_1password_secrets env app_id) := by
  unfold fly_import_1password_secrets
  apply printsOnError_bind (poe_item_id env _)
  intro item_id
  apply printsOnError_bind (poe_get_envs env item_id)
  intro envs
  apply printsOnError_bind (poe_update_fly env app_id _)
  intro _
  exact poe_update_custom env item_id _ _

theorem poe_ask : ∀ answers : List String, PrintsOnError (ask_import answers)
  | [] => printsOnError_of_not_runtime _ (by intro m h; simp [ask_import] at h)
  | a :: rest => by
      unfold ask_import
      apply printsOnError_bind (printsOnError_emit _)
      intro _
      split
      · exact printsOnError_ok _
      · split
        · exact printsOnError_ok _
        · exact poe_ask rest

theorem poe_edit (env : Env) (app_id : String) :
    PrintsOnError (edit_1password_secrets env app_id) := by
  unfold edit_1password_secrets
  apply printsOnError_bind (poe_item_id env _)
  intro item_id
  apply printsOnError_bind (poe_get_envs env item_id)
  intro secrets
  apply printsOnError_bind (printsOnError_emit _)
  intro _
  split
  · exact printsOnError_emit _
  · apply printsOnError_bind (poe_update_notes env item_id _)
    intro _
    apply printsOnError_bind (poe_update_custom env item_id _ _)
    intro _
    apply printsOnError_bind (poe_ask env.answers)
    intro yes
    split
    · exact poe_fly_import env app_id
    · exact printsOnError_ok _

theorem poe_repo_name (env : Env) :
    PrintsOnError (get_git_repository_name_from_current_directory env) := by
  unfold get_git_repository_name_from_current_directory
  apply printsOnError_bind (printsOnError_emit _)
  intro _
  split
  · exact printsOnError_raise _
  · split
    · exact printsOnError_raise _
    · exact printsOnError_ok _

theorem poe_get_local (env : Env) : PrintsOnError (get_local_secrets env) := by
  unfold get_local_secrets
  apply printsOnError_bind (poe_repo_name env)
  intro repository
  apply printsOnError_bind (poe_item_id env _)
  intro item_id
  apply printsOnError_bind (poe_get_envs env item_id)
  intro secrets
  apply printsOnError_bind (poe_get_filename env item_id)
  intro fn
  apply printsOnError_bind (printsOnError_emit _)
  intro _
  exact printsOnError_emit _

theorem poe_push_local (env : Env) : PrintsOnError (push_local_secrets env) := by
  unfold push_local_secrets
  apply printsOnError_bind (poe_repo_name env)
  intro repository_name
  apply printsOnError_bind (poe_item_id env _)
  intro item_id
  apply printsOnError_bind (poe_get_filename env item_id)
  intro fn
  apply printsOnError_bind (printsOnError_emit _)
  intro _
  split
  · exact printsOnError_of_not_runtime _ (by intro m h; simp at h)
  · apply printsOnError_bind (poe_update_notes env item_id _)
    intro _
    apply printsOnError_bind (poe_update_custom env item_id _ _)
    intro _
    exact printsOnError_emit _

theorem poe_run (env : Env) (cmd : Command) : PrintsOnError (run_command env cmd) := by
  cases cmd with
  | flyImport a => exact poe_fly_import env a
  | flyEdit a => exact poe_edit env a
  | localGet => exact poe_get_local env
  | localPush => exact poe_push_local env

/-- `s` ends with the literal string `sfx`. -/
def ends_with (s sfx : String) : Bool := List.isSuffixOf sfx.data s.data

/-- Environment with an empty vault, used to exhibit a lookup failure. -/
def env_empty : Env :=
  ⟨[], fun _ => ⟨[]⟩, "tok", fun _ _ => FlyResp.success 0, "2024/01/01 00:00:00",
    id, fun _ => none, none, []⟩

/-- C9: every domain error raised through `raise_error` (lookup failure,
empty secrets, remote API error, no-origin, unparsable remote) prints its
human-readable message to standard output at the point it is raised:
whenever a command fails with `RuntimeError m`, the final event of its
trace is `print m`, even though the top-level handler prints nothing. -/
theorem claim_C9 (env : Env) (cmd : Command) (m : String)
    (h : (run_command env cmd).2 = Except.error (Err.runtime m)) :
    (run_command env cmd).1.getLast? = some (Event.print m) :=
  poe_run env cmd m h

theorem claim_C9_witness :
    (run_command env_empty (Command.flyImport "x")).2 =
      Except.error (Err.runtime
        "There is no secure note in 1password with a name containing `fly:x`") ∧
    (run_command env_empty (Command.flyImport "x")).1.getLast? =
      some (Event.print
        "There is no secure note in 1password with a name containing `fly:x`") :=
  ⟨rfl, claim_C9 env_empty (Command.flyImport "x") _ rfl⟩

/-- C8: for every invocation of any of the four commands, the process exit
code is 0 exactly when the workflow completes without raising, and 1
exactly when some exception is raised inside the workflow. -/
theorem claim_C8 (env : Env) (cmd : Command) :
    (main_exit_code env cmd = 0 ↔ (run_command env cmd).2 = Except.ok ()) ∧
    (main_exit_code env cmd = 1 ↔ ∃ e, (run_command env cmd).2 = Except.error e) := by
  rcases hr : (run_command env cmd).2 with e | a
  · simp [main_exit_code, hr]
  · cases a
    simp [main_exit_code, hr]

/-- C3: `get_1password_env_file_item_id` returns the id of the first
Secure Note item whose title contains the substring, and raises the
lookup `RuntimeError` when no item's title contains it. -/
theorem claim_C3 (env : Env) (s : String) :
    (∀ (i : Nat) (hi : i < env.secureNotes.length),
        title_matches s (env.secureNotes.get ⟨i, hi⟩) = true →
        (∀ (j : Nat) (hj : j < env.secureNotes.length), j < i →
          title_matches s (env.secureNotes.get ⟨j, hj⟩) = false) →
        (get_1password_env_file_item_id env s).2 =
          Except.ok (env.secureNotes.get ⟨i, hi⟩).id) ∧
    ((∀ it ∈ env.secureNotes, title_matches s it = false) →
        (get_1password_env_file_item_id env s).2 =
          Except.error (Err.runtime
            ("There is no secure note in 1password with a name containing `"
              ++ s ++ "`"))) := by
  constructor
  · intro i hi hp hmin
    have hf := find_first (title_matches s) env.secureNotes i hi hp hmin
    simp [get_1password_env_file_item_id, M.bind, emit, hf, M.ok]
  · intro hnone
    have hf : env.secureNotes.find? (title_matches s) = none := by
      rw [List.find?_eq_none]
      intro x hx
      simp [hnone x hx]
    simp [get_1password_env_file_item_id, M.bind, emit, hf, raise_error]

/-- Vault with a non-matching first item and a matching second one. -/
def envC3 : Env :=
  ⟨[⟨"a1", "another title"⟩, ⟨"b1", "my fly:app env"⟩], fun _ => ⟨[]⟩, "tok",
    fun _ _ => FlyResp.success 0, "2024/01/01 00:00:00", id, fun _ => none, none, []⟩

theorem claim_C3_witness :
    title_matches "fly:app" (envC3.secureNotes.get ⟨1, by decide⟩) = true ∧
    (get_1password_env_file_item_id envC3 "fly:app").2 = Except.ok "b1" := by
  refine ⟨by decide, ?_⟩
  exact (claim_C3 envC3 "fly:app").1 1 (by decide) (by decide)
    (fun j hj hji => by
      have hj0 : j = 0 := by omega
      subst hj0
      show title_matches "fly:app" (⟨"a1", "another title"⟩ : Item) = false
      decide)

/-- The source regex `^(https|git)(:\/\/|@)([^\/:]+)[\/:]([^\/:]+)\/(.+).git$`
leaves the dot before `git` unescaped, so it matches any character: this
URL lacks the literal `.git` suffix yet resolves to `acme/widget` instead
of failing. -/
def envC1 : Env :=
  ⟨[], fun _ => ⟨[]⟩, "tok", fun _ _ => FlyResp.success 0, "2024/01/01 00:00:00",
    id, fun _ => none, some "git@github.com:acme/widgetXgit", []⟩

theorem claim_C1_counterexample :
    ends_with "git@github.com:acme/widgetXgit" ".git" = false ∧
    get_git_repository_name_from_current_directory envC1 =
      ([Event.gitConfigGetOriginUrl], Except.ok "acme/widget") := by
  exact ⟨by decide, rfl⟩

/-- C1 (amended): with remote url `git@github.com:acme/widget.git` the
repository identity resolves to `acme/widget`; and resolution fails with
the unparsable-remote `RuntimeError` exactly for URLs rejected by the
source pattern, in which the dot before `git` is unescaped and so matches
any character (rather than for every URL lacking a literal `.git` suffix). -/
theorem claim_C1_amended :
    (∀ env : Env, env.gitRemoteUrl = some "git@github.com:acme/widget.git" →
      get_git_repository_name_from_current_directory env =
        ([Event.gitConfigGetOriginUrl], Except.ok "acme/widget")) ∧
    (∀ (env : Env) (url : String), env.gitRemoteUrl = some url →
      matchGitRemote url = none →
      get_git_repository_name_from_current_directory env =
        ([Event.gitConfigGetOriginUrl,
          Event.print "Could not get remote \"origin\" url from git repository"],
         Except.error
           (Err.runtime "Could not get remote \"origin\" url from git repository"))) := by
  constructor
  · intro env h
    simp only [get_git_repository_name_from_current_directory, h]
    rfl
  · intro env url h hm
    simp only [get_git_repository_name_from_current_directory, h, hm]
    rfl

def envC1good : Env :=
  ⟨[], fun _ => ⟨[]⟩, "tok", fun _ _ => FlyResp.success 0, "2024/01/01 00:00:00",
    id, fun _ => none, some "git@github.com:acme/widget.git", []⟩

def envC1bad : Env :=
  ⟨[], fun _ => ⟨[]⟩, "tok", fun _ _ => FlyResp.success 0, "2024/01/01 00:00:00",
    id, fun _ => none, some "foo", []⟩

theorem claim_C1_witness :
    (envC1good.gitRemoteUrl = some "git@github.com:acme/widget.git" ∧
      get_git_repository_name_from_current_directory envC1good =
        ([Event.gitConfigGetOriginUrl], Except.ok "acme/widget")) ∧
    (matchGitRemote "foo" = none ∧
      get_git_repository_name_from_current_directory envC1bad =
        ([Event.gitConfigGetOriginUrl,
          Event.print "Could not get remote \"origin\" url from git repository"],
         Except.error
           (Err.runtime "Could not get remote \"origin\" url from git repository"))) :=
  ⟨⟨rfl, claim_C1_amended.1 envC1good rfl⟩,
   ⟨rfl, claim_C1_amended.2 envC1bad "foo" rfl rfl⟩⟩

/-- C2 (amended): Remote Import calls the `setSecrets` mutation with the
parsed set and `replaceAll: true`, then prints the message containing the
returned release version, and only then stamps the `last imported at`
timestamp field — the print comes from inside `update_fly_secrets`,
before the stamp, not after it. -/
theorem claim_C2_amended (env : Env) (app_id : String) (it : Item) (v : String) (ver : Nat)
    (h1 : env.secureNotes.find? (title_matches ("fly:" ++ app_id)) = some it)
    (h2 : notes_value (env.getItem it.id) = some v)
    (h3 : get_secrets_from_envs v ≠ [])
    (h4 : env.flyResponse app_id
        ((get_secrets_from_envs v).map (fun p => SecretKV.mk p.1 p.2)) =
      FlyResp.success ver) :
    fly_import_1password_secrets env app_id =
      ([Event.opItemList, Event.opItemGet it.id, Event.flyAuthToken,
        Event.flySetSecrets app_id
          ((get_secrets_from_envs v).map (fun p => SecretKV.mk p.1 p.2)) true,
        Event.print ("Releasing fly app " ++ app_id ++ " version " ++ toString ver),
        Event.opItemEdit it.id
          ("Generated by 1password-secrets.last imported at[text]=" ++ env.now)],
       Except.ok ()) := by
  have hv : v ≠ "" := by
    intro he
    apply h3
    rw [he]
    rfl
  simp [fly_import_1password_secrets, get_1password_env_file_item_id,
    get_envs_from_1password, get_item_from_1password, update_fly_secrets,
    get_fly_auth_token, update_1password_custom_field, emit, M.ok,
    h1, h2, h4, hv]

/-- Vault for the C2 scenario of the spec: item `fly:myapp` with notes
`"A=1\nB=2\n"`, fly returning release version 5. -/
def envC2 : Env :=
  ⟨[⟨"i1", "fly:myapp"⟩],
   fun _ => ⟨[⟨"notesPlain", "notesPlain", some "A=1\nB=2\n"⟩]⟩,
   "tok", fun _ _ => FlyResp.success 5, "2024/01/01 00:00:00", id,
   fun _ => none, none, []⟩

/-- An `op item edit` call writing a `Generated by 1password-secrets.*`
custom field (a timestamp stamp). -/
def is_timestamp_stamp : Event → Bool
  | Event.opItemEdit _ assignment =>
      List.isPrefixOf "Generated by 1password-secrets.".data assignment.data
  | _ => false

/-- The release-version status print of `update_fly_secrets`. -/
def is_release_print : Event → Bool
  | Event.print m => List.isPrefixOf "Releasing fly app ".data m.data
  | _ => false

theorem claim_C2_counterexample :
    fly_import_1password_secrets envC2 "myapp" =
      ([Event.opItemList, Event.opItemGet "i1", Event.flyAuthToken,
        Event.flySetSecrets "myapp" [⟨"A", "1"⟩, ⟨"B", "2"⟩] true,
        Event.print "Releasing fly app myapp version 5",
        Event.opItemEdit "i1"
          "Generated by 1password-secrets.last imported at[text]=2024/01/01 00:00:00"],
       Except.ok ()) ∧
    (∃ i j : Fin (fly_import_1password_secrets envC2 "myapp").1.length,
        (i : Nat) < (j : Nat) ∧
        is_release_print ((fly_import_1password_secrets envC2 "myapp").1.get i) = true ∧
        is_timestamp_stamp ((fly_import_1password_secrets envC2 "myapp").1.get j) = true) ∧
    ¬ (∃ i j : Fin (fly_import_1password_secrets envC2 "myapp").1.length,
        (i : Nat) < (j : Nat) ∧
        is_timestamp_stamp ((fly_import_1password_secrets envC2 "myapp").1.get i) = true ∧
        is_release_print ((fly_import_1password_secrets envC2 "myapp").1.get j) = true) := by
  refine ⟨rfl, by decide, by decide⟩

theorem claim_C2_witness :
    envC2.secureNotes.find? (title_matches "fly:myapp") = some ⟨"i1", "fly:myapp"⟩ ∧
    notes_value (envC2.getItem "i1") = some "A=1\nB=2\n" ∧
    get_secrets_from_envs "A=1\nB=2\n" ≠ [] ∧
    fly_import_1password_secrets envC2 "myapp" =
      ([Event.opItemList, Event.opItemGet "i1", Event.flyAuthToken,
        Event.flySetSecrets "myapp"
          ((get_secrets_from_envs "A=1\nB=2\n").map (fun p => SecretKV.mk p.1 p.2)) true,
        Event.print ("Releasing fly app " ++ "myapp" ++ " version " ++ toString 5),
        Event.opItemEdit "i1"
          ("Generated by 1password-secrets.last imported at[text]=" ++ envC2.now)],
       Except.ok ()) :=
  ⟨by decide, rfl, by decide,
   claim_C2_amended envC2 "myapp" ⟨"i1", "fly:myapp"⟩ "A=1\nB=2\n" 5
     (by decide) rfl (by decide) rfl⟩

/-- C4: Remote Edit, when the content read back from the editor equals the
content written, prints "No changes detected, aborting." and stops: its
trace has no `op item edit` call (neither a notes update nor a timestamp
stamp) and no import prompt, and the run succeeds. -/
theorem claim_C4 (env : Env) (app_id : String) (it : Item) (v : String)
    (h1 : env.secureNotes.find? (title_matches ("fly:" ++ app_id)) = some it)
    (h2 : notes_value (env.getItem it.id) = some v)
    (h3 : v ≠ "")
    (h4 : env.editorOutput v = v) :
    (edit_1password_secrets env app_id).2 = Except.ok () ∧
    Event.print "No changes detected, aborting." ∈ (edit_1password_secrets env app_id).1 ∧
    ∀ e ∈ (edit_1password_secrets env app_id).1,
      (∀ iid assignment, e ≠ Event.opItemEdit iid assignment) ∧
      e ≠ Event.promptImport := by
  have htr : edit_1password_secrets env app_id =
      ([Event.opItemList, Event.opItemGet it.id, Event.runEditor v,
        Event.print "No changes detected, aborting."], Except.ok ()) := by
    simp [edit_1password_secrets, get_1password_env_file_item_id,
      get_envs_from_1password, get_item_from_1password, emit, M.ok,
      h1, h2, h3, h4]
  rw [htr]
  refine ⟨rfl, by simp, ?_⟩
  intro e he
  fin_cases he <;> exact ⟨fun iid assignment => by simp, by simp⟩

/-- Vault for the C4 witness: notes `A=1\n`, an editor that changes nothing. -/
def envC4 : Env :=
  ⟨[⟨"i1", "fly:myapp"⟩],
   fun _ => ⟨[⟨"notesPlain", "notesPlain", some "A=1\n"⟩]⟩,
   "tok", fun _ _ => FlyResp.success 0, "2024/01/01 00:00:00", id,
   fun _ => none, none, ["y"]⟩

theorem claim_C4_witness :
    envC4.secureNotes.find? (title_matches "fly:myapp") = some ⟨"i1", "fly:myapp"⟩ ∧
    notes_value (envC4.getItem "i1") = some "A=1\n" ∧
    envC4.editorOutput "A=1\n" = "A=1\n" ∧
    ((edit_1password_secrets envC4 "myapp").2 = Except.ok () ∧
     Event.print "No changes detected, aborting." ∈ (edit_1password_secrets envC4 "myapp").1 ∧
     ∀ e ∈ (edit_1password_secrets envC4 "myapp").1,
       (∀ iid assignment, e ≠ Event.opItemEdit iid assignment) ∧
       e ≠ Event.promptImport) :=
  ⟨by decide, rfl, rfl,
   claim_C4 envC4 "myapp" ⟨"i1", "fly:myapp"⟩ "A=1\n" (by decide) rfl (by decide) rfl⟩

/-- C5: the transmitted payload always sets `replaceAll` to `true` and has
exactly one `{key, value}` entry per mapping entry, keys and values taken
unchanged and in order — no filtering, so empty-string values are kept. -/
theorem claim_C5 (env : Env) (app_id : String) (secrets : List (String × String)) :
    ∃ (pl : List SecretKV) (rest : List Event),
      (update_fly_secrets env app_id secrets).1 =
        Event.flyAuthToken :: Event.flySetSecrets app_id pl true :: rest ∧
      pl.map SecretKV.key = secrets.map Prod.fst ∧
      pl.map SecretKV.value = secrets.map Prod.snd := by
  have hk : (secrets.map (fun p => SecretKV.mk p.1 p.2)).map SecretKV.key =
      secrets.map Prod.fst := by
    simp [List.map_map]
  have hv : (secrets.map (fun p => SecretKV.mk p.1 p.2)).map SecretKV.value =
      secrets.map Prod.snd := by
    simp [List.map_map]
  rcases hr : env.flyResponse app_id (secrets.map (fun p => SecretKV.mk p.1 p.2))
      with e | ver
  · exact ⟨secrets.map (fun p => SecretKV.mk p.1 p.2), [Event.print e],
      by simp [update_fly_secrets, get_fly_auth_token, emit, M.ok, hr, raise_error],
      hk, hv⟩
  · exact ⟨secrets.map (fun p => SecretKV.mk p.1 p.2),
      [Event.print ("Releasing fly app " ++ app_id ++ " version " ++ toString ver)],
      by simp [update_fly_secrets, get_fly_auth_token, emit, M.ok, hr],
      hk, hv⟩

/-- C6: `get_envs_from_1password` returns the value of the (first) field
whose id is `notesPlain`, and raises the `Empty secrets` error exactly
when that value is absent — no such field, or the field has no value — or
is the empty string. -/
theorem claim_C6 (env : Env) (item_id : String) :
    (∀ (i : Nat) (hi : i < (env.getItem item_id).fields.length) (v : String),
        field_id_is "notesPlain" ((env.getItem item_id).fields.get ⟨i, hi⟩) = true →
        (∀ (j : Nat) (hj : j < (env.getItem item_id).fields.length), j < i →
          field_id_is "notesPlain" ((env.getItem item_id).fields.get ⟨j, hj⟩) = false) →
        ((env.getItem item_id).fields.get ⟨i, hi⟩).value = some v → v ≠ "" →
        (get_envs_from_1password env item_id).2 = Except.ok v) ∧
    ((get_envs_from_1password env item_id).2 =
        Except.error (Err.runtime "Empty secrets, aborting") ↔
      (notes_value (env.getItem item_id) = none ∨
       notes_value (env.getItem item_id) = some "")) := by
  constructor
  · intro i hi v hp hmin hv hne
    have hf := find_first (field_id_is "notesPlain") (env.getItem item_id).fields i hi hp hmin
    have hnv : notes_value (env.getItem item_id) = some v := by
      unfold notes_value
      rw [hf]
      exact hv
    simp [get_envs_from_1password, get_item_from_1password, emit, M.ok, hnv, hne]
  · rcases hnv : notes_value (env.getItem item_id) with _ | v
    · simp [get_envs_from_1password, get_item_from_1password, emit, M.ok, hnv,
        raise_error]
    · by_cases hve : v = ""
      · subst hve
        simp [get_envs_from_1password, get_item_from_1password, emit, M.ok, hnv,
          raise_error]
      · simp [get_envs_from_1password, get_item_from_1password, emit, M.ok, hnv,
          hve]

/-- Item whose first field is not `notesPlain` and whose second is. -/
def envC6 : Env :=
  ⟨[⟨"i1", "fly:myapp"⟩],
   fun _ => ⟨[⟨"password", "password", some "p"⟩,
              ⟨"notesPlain", "notesPlain", some "A=1\n"⟩]⟩,
   "tok", fun _ _ => FlyResp.success 0, "2024/01/01 00:00:00", id,
   fun _ => none, none, []⟩

theorem claim_C6_witness :
    field_id_is "notesPlain" ((envC6.getItem "i1").fields.get ⟨1, by decide⟩) = true ∧
    ((envC6.getItem "i1").fields.get ⟨1, by decide⟩).value = some "A=1\n" ∧
    (get_envs_from_1password envC6 "i1").2 = Except.ok "A=1\n" := by
  refine ⟨by decide, by decide, ?_⟩
  exact (claim_C6 envC6 "i1").1 1 (by decide) "A=1\n" (by decide)
    (fun j hj hji => by
      have hj0 : j = 0 := by omega
      subst hj0
      show field_id_is "notesPlain" (⟨"password", "password", some "p"⟩ : VField) = false
      decide)
    rfl (by decide)

/-- C7 (amended): a successful Local Get writes exactly the raw notes text
fetched from the vault (no re-serialization) to the local file, whose name
is the `file_name` field value when that value is present and non-empty,
and `.env` when the field is absent, valueless, or holds the empty string
(Python's `or` treats `""` as falsy). -/
theorem claim_C7_amended (env : Env) (url owner nam : String) (it : Item)
    (v fname : String)
    (hg : env.gitRemoteUrl = some url)
    (hm : matchGitRemote url = some (owner, nam))
    (h1 : env.secureNotes.find? (title_matches ("repo:" ++ (owner ++ "/" ++ nam))) =
      some it)
    (h2 : notes_value (env.getItem it.id) = some v)
    (h3 : v ≠ "")
    (hf : fname = match filename_value (env.getItem it.id) with
                  | some s => if s = "" then ".env" else s
                  | none => ".env") :
    get_local_secrets env =
      ([Event.gitConfigGetOriginUrl, Event.opItemList, Event.opItemGet it.id,
        Event.opItemGet it.id, Event.writeLocalFile fname v,
        Event.print ("Successfully updated " ++ fname ++ " from 1password")],
       Except.ok ()) := by
  have hfn : or_default (filename_value (env.getItem it.id)) = fname := by
    rw [hf]
    rcases filename_value (env.getItem it.id) with _ | s
    · rfl
    · simp [or_default, DEFAULT_ENV_FILE_NAME]
  simp [get_local_secrets, get_git_repository_name_from_current_directory,
    get_1password_env_file_item_id, get_envs_from_1password,
    get_item_from_1password, get_filename_from_1password, emit, M.ok,
    hg, hm, h1, h2, h3, hfn]

/-- Repository `acme/widget`, item with notes `A=1\n` and a `file_name`
field holding the empty string. -/
def envC7 : Env :=
  ⟨[⟨"i1", "repo:acme/widget"⟩],
   fun _ => ⟨[⟨"notesPlain", "notesPlain", some "A=1\n"⟩,
              ⟨"f1", "file_name", some ""⟩]⟩,
   "tok", fun _ _ => FlyResp.success 0, "2024/01/01 00:00:00", id,
   fun _ => none, some "git@github.com:acme/widget.git", []⟩

theorem claim_C7_counterexample :
    filename_value (envC7.getItem "i1") = some "" ∧
    get_local_secrets envC7 =
      ([Event.gitConfigGetOriginUrl, Event.opItemList, Event.opItemGet "i1",
        Event.opItemGet "i1", Event.writeLocalFile ".env" "A=1\n",
        Event.print "Successfully updated .env from 1password"],
       Except.ok ()) ∧
    Event.writeLocalFile "" "A=1\n" ∉ (get_local_secrets envC7).1 := by
  exact ⟨rfl, rfl, by decide⟩

/-- Same vault but the `file_name` field names `secrets.env`. -/
def envC7b : Env :=
  ⟨[⟨"i1", "repo:acme/widget"⟩],
   fun _ => ⟨[⟨"notesPlain", "notesPlain", some "A=1\n"⟩,
              ⟨"f1", "file_name", some "secrets.env"⟩]⟩,
   "tok", fun _ _ => FlyResp.success 0, "2024/01/01 00:00:00", id,
   fun _ => none, some "git@github.com:acme/widget.git", []⟩

theorem claim_C7_witness :
    matchGitRemote "git@github.com:acme/widget.git" = some ("acme", "widget") ∧
    notes_value (envC7b.getItem "i1") = some "A=1\n" ∧
    filename_value (envC7b.getItem "i1") = some "secrets.env" ∧
    get_local_secrets envC7b =
      ([Event.gitConfigGetOriginUrl, Event.opItemList, Event.opItemGet "i1",
        Event.opItemGet "i1", Event.writeLocalFile "secrets.env" "A=1\n",
        Event.print ("Successfully updated " ++ "secrets.env" ++ " from 1password")],
       Except.ok ()) :=
  ⟨rfl, rfl, rfl,
   claim_C7_amended envC7b "git@github.com:acme/widget.git" "acme" "widget"
     ⟨"i1", "repo:acme/widget"⟩ "A=1\n" "secrets.env" rfl rfl (by decide) rfl
     (by decide) rfl⟩

/-- C10: Local Push reads the local file before any vault write: when the
target file cannot be read, the run fails (with an OS error, not a printed
domain error) and its trace contains no `op item edit` call at all — the
vault item is completely unchanged. -/
theorem claim_C10 (env : Env) (url owner nam : String) (it : Item)
    (hg : env.gitRemoteUrl = some url)
    (hm : matchGitRemote url = some (owner, nam))
    (h1 : env.secureNotes.find? (title_matches ("repo:" ++ (owner ++ "/" ++ nam))) =
      some it)
    (hf : env.localFiles (or_default (filename_value (env.getItem it.id))) = none) :
    (push_local_secrets env).2 = Except.error Err.ioError ∧
    ∀ e ∈ (push_local_secrets env).1,
      ∀ iid assignment, e ≠ Event.opItemEdit iid assignment := by
  have htr : push_local_secrets env =
      ([Event.gitConfigGetOriginUrl, Event.opItemList, Event.opItemGet it.id,
        Event.readLocalFile (or_default (filename_value (env.getItem it.id)))],
       Except.error Err.ioError) := by
    simp [push_local_secrets, get_git_repository_name_from_current_directory,
      get_1password_env_file_item_id, get_item_from_1password,
      get_filename_from_1password, emit, M.ok, hg, hm, h1, hf]
  rw [htr]
  refine ⟨rfl, ?_⟩
  intro e he
  fin_cases he <;> intro iid assignment <;> simp

/-- Repository `acme/widget`, a vault item for it, and no readable local
file at all. -/
def envC10 : Env :=
  ⟨[⟨"i1", "repo:acme/widget"⟩],
   fun _ => ⟨[⟨"notesPlain", "notesPlain", some "A=1\n"⟩]⟩,
   "tok", fun _ _ => FlyResp.success 0, "2024/01/01 00:00:00", id,
   fun _ => none, some "git@github.com:acme/widget.git", []⟩

theorem claim_C10_witness :
    envC10.localFiles ".env" = none ∧
    ((push_local_secrets envC10).2 = Except.error Err.ioError ∧
     ∀ e ∈ (push_local_secrets envC10).1,
       ∀ iid assignment, e ≠ Event.opItemEdit iid assignment) :=
  ⟨rfl,
   claim_C10 envC10 "git@github.com:acme/widget.git" "acme" "widget"
     ⟨"i1", "repo:acme/widget"⟩ rfl rfl (by decide) rfl⟩
